import Mathlib

/-!
Verification development for the beads-workflows core: the snapshot reader,
the change detector (diff), the live watcher's reconciliation pass, the
dependency/readiness engine, the execution ledger (workflows.jsonl), and the
dispatcher. Each definition is a shallow embedding of the corresponding
TypeScript source function; doc comments name the source location.

Modelling conventions:
* JavaScript strings are `String`, numbers are `Int` (or `Nat` for file
  sizes), `undefined`-able fields are `Option`.
* A JavaScript `Date` is represented by `Option Int`: `some ms` for a
  valid date (epoch milliseconds), `none` for an Invalid Date, whose
  `getTime()` is `NaN`. `new Date(s)` on a missing or unparseable string
  yields an Invalid Date, and `NaN !== NaN`, so the diff's `getTime()`
  equality test (`jsTimeEq`) is NOT reflexive on Invalid Dates.
* A JSONL line is modelled as `Option RawIssue`: `none` stands for a blank
  line or a line whose `JSON.parse` throws, `some raw` for a line whose
  JSON parses to an object with the `JsonlIssue` shape. The TypeScript
  static type of a parsed object is a cast (`raw.status as IssueStatus`),
  not a runtime check, so `RawIssue.status` is a plain `String`.
* A JavaScript `Map` built by repeated `set` is an association list with
  unique keys in insertion order (`IssueMap`); `mapSet` updates in place,
  `mapGet` returns the unique entry.
-/

/-- Runtime shape of an Issue (src/types.ts `Issue`). `status`, `type` and
`priority` hold whatever the JSON contained: the reader casts them without
validation, so they are `String`/`Int` here, not closed enumerations. -/
structure Issue where
  id : String
  title : String
  description : Option String := none
  status : String
  type : String
  priority : Int
  assignee : Option String := none
  labels : Option (List String) := none
  created : Option Int
  updated : Option Int
  closed : Option (Option Int) := none
  dependsOn : List String := []
  blocks : List String := []
  deriving DecidableEq, Repr

/-- src/types.ts `VALID_STATUSES`. -/
def VALID_STATUSES : List String := ["open", "in_progress", "closed"]

/-- src/types.ts `VALID_TYPES`. -/
def VALID_TYPES : List String := ["task", "bug", "feature", "epic"]

/-- src/types.ts `isValidStatus` (on a string value). -/
def isValidStatus (value : String) : Bool :=
  VALID_STATUSES.contains value

/-- src/types.ts `isValidType` (on a string value). -/
def isValidType (value : String) : Bool :=
  VALID_TYPES.contains value

/-- src/types.ts `isValidPriority` (on an integer value; `Number.isInteger`
always holds in the `Int` model). -/
def isValidPriority (value : Int) : Bool :=
  0 ≤ value && value ≤ 4

/-- One element of the raw `dependencies` array (reader `JsonlIssue`). -/
structure RawDependency where
  issue_id : String
  depends_on_id : String
  type : String
  deriving DecidableEq, Repr

/-- The reader's `JsonlIssue` raw format: the object produced by a
successful `JSON.parse` of one line. The date-string fields are
represented by the outcome of `new Date(...)` on them: `some ms` when the
string parses, `none` when it is missing or unparseable (Invalid Date).
For `closed_at` the outer `Option` is the source's truthiness test
(`raw.closed_at ? ... : undefined`): `none` when the field is absent or
falsy, `some t` when present, with `t` the date-parse outcome. -/
structure RawIssue where
  id : String
  title : String
  description : Option String := none
  status : String
  priority : Int
  issue_type : String
  created_at : Option Int
  updated_at : Option Int
  closed_at : Option (Option Int) := none
  close_reason : Option String := none
  assignee : Option String := none
  labels : Option (List String) := none
  dependencies : Option (List RawDependency) := none
  deriving DecidableEq, Repr

/-- Body of the reader's `parseJsonlLine` try block: build the `Issue` from
the parsed object. `dependsOn` collects each truthy `depends_on_id`
(non-empty string); `status`, `type` and `priority` are carried through by
cast with no validation; `blocks` starts empty. -/
def issueOfRaw (raw : RawIssue) : Issue :=
  { id := raw.id
    title := raw.title
    description := raw.description
    status := raw.status
    type := raw.issue_type
    priority := raw.priority
    assignee := raw.assignee
    labels := raw.labels
    created := raw.created_at
    updated := raw.updated_at
    closed := raw.closed_at
    dependsOn := (raw.dependencies.getD []).filterMap
      (fun dep => if dep.depends_on_id = "" then none else some dep.depends_on_id)
    blocks := [] }

/-- `parseJsonlLine` (src/reader.ts lines 102-139): returns `null` for a
blank line or a line whose JSON fails to parse (input `none`), and
otherwise always returns the issue built from the raw object. -/
def parseJsonlLine (line : Option RawIssue) : Option Issue :=
  match line with
  | none => none
  | some raw => some (issueOfRaw raw)

/-- A JavaScript `Map<string, Issue>` as an insertion-ordered association
list. -/
abbrev IssueMap := List (String × Issue)

/-- `Map.get`: the value of the first (under the unique-keys invariant,
only) entry with the given key. -/
def mapGet (m : IssueMap) (k : String) : Option Issue :=
  match m with
  | [] => none
  | p :: rest => if p.1 = k then some p.2 else mapGet rest k

/-- `Map.set`: replace the value in place when the key is present,
otherwise append the new entry. -/
def mapSet (m : IssueMap) (k : String) (v : Issue) : IssueMap :=
  if m.any (fun p => p.1 = k) then
    m.map (fun p => if p.1 = k then (k, v) else p)
  else
    m ++ [(k, v)]

/-- The parse loop shared by `parseToMap` (src/diff.ts lines 38-50) and the
watcher's `processChanges` read loop (src/watcher.ts lines 99-107): parse
each line, last occurrence of an id wins. -/
def parseToMap (content : List (Option RawIssue)) : IssueMap :=
  content.foldl
    (fun m line =>
      match parseJsonlLine line with
      | some issue => mapSet m issue.id issue
      | none => m)
    []

/-- The keys of an issue map are pairwise distinct (invariant of any map
built by `Map.set` from empty). -/
def keysNodup (m : IssueMap) : Prop :=
  (m.map Prod.fst).Nodup

/-- Every entry's value carries the entry's key as its `id` (invariant of
the parse loops, which always `set(issue.id, issue)`). -/
def coherent (m : IssueMap) : Prop :=
  ∀ p ∈ m, p.2.id = p.1

lemma mapGet_mem {m : IssueMap} {k : String} {v : Issue}
    (h : mapGet m k = some v) : (k, v) ∈ m := by
  induction m with
  | nil => simp [mapGet] at h
  | cons p rest ih =>
    by_cases hk : p.1 = k
    · rw [mapGet, if_pos hk] at h
      have hv : p.2 = v := Option.some.inj h
      have hp : (k, v) = p := by
        obtain ⟨a, b⟩ := p
        simp only at hk hv
        simp [hk, hv]
      rw [hp]
      exact List.mem_cons_self _ _
    · rw [mapGet, if_neg hk] at h
      exact List.mem_cons_of_mem _ (ih h)

lemma mem_mapGet {m : IssueMap} {k : String} {v : Issue}
    (hn : keysNodup m) (h : (k, v) ∈ m) : mapGet m k = some v := by
  induction m with
  | nil => simp at h
  | cons p rest ih =>
    rcases List.mem_cons.mp h with h1 | h1
    · subst h1
      simp [mapGet]
    · have hk : p.1 ≠ k := by
        intro he
        have : k ∈ rest.map Prod.fst := by
          exact List.mem_map.mpr ⟨(k, v), h1, rfl⟩
        have := (List.nodup_cons.mp hn).1
        rw [he] at this
        exact this ‹k ∈ rest.map Prod.fst›
      simp only [mapGet, if_neg hk]
      exact ih (List.nodup_cons.mp hn).2 h1

lemma keysNodup_mapSet {m : IssueMap} {k : String} {v : Issue}
    (hn : keysNodup m) : keysNodup (mapSet m k v) := by
  unfold mapSet
  by_cases hmem : m.any (fun p => p.1 = k)
  · rw [if_pos hmem]
    unfold keysNodup
    have : (m.map (fun p => if p.1 = k then (k, v) else p)).map Prod.fst
        = m.map Prod.fst := by
      rw [List.map_map]
      apply List.map_congr_left
      intro p _
      by_cases hp : p.1 = k
      · simp [hp]
      · simp [hp]
    rw [this]
    exact hn
  · rw [if_neg hmem]
    unfold keysNodup
    rw [List.map_append]
    refine List.Nodup.append hn (by simp) ?_
    intro x hx
    simp only [List.map_cons, List.map_nil, List.mem_singleton]
    intro he
    subst he
    apply hmem
    rcases List.mem_map.mp hx with ⟨p, hp, hpk⟩
    exact List.any_eq_true.mpr ⟨p, hp, by simp [hpk]⟩

lemma coherent_mapSet {m : IssueMap} {k : String} {v : Issue}
    (hc : coherent m) (hkv : v.id = k) : coherent (mapSet m k v) := by
  unfold mapSet
  by_cases hmem : m.any (fun p => p.1 = k)
  · rw [if_pos hmem]
    intro p hp
    rcases List.mem_map.mp hp with ⟨q, hq, hpq⟩
    by_cases hqk : q.1 = k
    · rw [if_pos hqk] at hpq
      subst hpq
      exact hkv
    · rw [if_neg hqk] at hpq
      subst hpq
      exact hc q hq
  · rw [if_neg hmem]
    intro p hp
    rcases List.mem_append.mp hp with h1 | h1
    · exact hc p h1
    · simp only [List.mem_singleton] at h1
      subst h1
      exact hkv

lemma keysNodup_parseToMap (content : List (Option RawIssue)) :
    keysNodup (parseToMap content) := by
  unfold parseToMap
  suffices h : ∀ acc : IssueMap, keysNodup acc →
      keysNodup (content.foldl
        (fun m line =>
          match parseJsonlLine line with
          | some issue => mapSet m issue.id issue
          | none => m) acc) by
    exact h [] (by simp [keysNodup])
  induction content with
  | nil => intro acc hacc; exact hacc
  | cons line rest ih =>
    intro acc hacc
    simp only [List.foldl_cons]
    apply ih
    cases parseJsonlLine line with
    | none => exact hacc
    | some issue => exact keysNodup_mapSet hacc

lemma coherent_parseToMap (content : List (Option RawIssue)) :
    coherent (parseToMap content) := by
  unfold parseToMap
  suffices h : ∀ acc : IssueMap, coherent acc →
      coherent (content.foldl
        (fun m line =>
          match parseJsonlLine line with
          | some issue => mapSet m issue.id issue
          | none => m) acc) by
    exact h [] (by intro p hp; simp at hp)
  induction content with
  | nil => intro acc hacc; exact hacc
  | cons line rest ih =>
    intro acc hacc
    simp only [List.foldl_cons]
    apply ih
    cases parseJsonlLine line with
    | none => exact hacc
    | some issue => exact coherent_mapSet hacc rfl

/-- JavaScript `getTime()` equality on two dates: true iff both are valid
and carry the same instant. An Invalid Date has `getTime() = NaN` and
`NaN === NaN` is false, so this test is NOT reflexive at `none`. -/
def jsTimeEq (a b : Option Int) : Bool :=
  match a, b with
  | some x, some y => x == y
  | _, _ => false

/-- src/diff.ts `issueChanged` (lines 55-67): the compared fields are
status, title, priority, assignee, description and the updated timestamp,
the latter via `before.updated.getTime() !== after.updated.getTime()`
(`jsTimeEq`, false — hence "changed" — whenever either side is an
Invalid Date). -/
def issueChanged (before after : Issue) : Bool :=
  before.status != after.status ||
  before.title != after.title ||
  before.priority != after.priority ||
  before.assignee != after.assignee ||
  before.description != after.description ||
  !jsTimeEq before.updated after.updated

/-- src/diff.ts `UpdatedIssue`. -/
structure UpdatedIssue where
  id : String
  before : Issue
  after : Issue
  deriving DecidableEq, Repr

/-- src/diff.ts `DiffResult`. -/
structure DiffResult where
  created : List Issue
  updated : List UpdatedIssue
  closed : List Issue
  deriving DecidableEq, Repr

/-- src/diff.ts `DiffInput`: the two contents, each as a list of per-line
parse outcomes. -/
structure DiffInput where
  before : List (Option RawIssue)
  after : List (Option RawIssue)

/-- The diff loop's condition for the `closed` branch (src/diff.ts line
89): previous status not closed and new status closed. -/
def closedTransition (before after : Issue) : Bool :=
  before.status != "closed" && after.status == "closed"

/-- Entries the diff loop pushes onto `created`: ids of `after` absent from
`before`, in iteration order. The single source loop (src/diff.ts lines
81-95) appends each entry to at most one of the three lists, so each list
is a `filterMap` over the `after` map. -/
def diffCreated (beforeMap afterMap : IssueMap) : List Issue :=
  afterMap.filterMap (fun p =>
    match mapGet beforeMap p.1 with
    | none => some p.2
    | some _ => none)

/-- Entries the diff loop pushes onto `closed`: present in both, changed,
and transitioning to closed (src/diff.ts lines 87-90). -/
def diffClosed (beforeMap afterMap : IssueMap) : List Issue :=
  afterMap.filterMap (fun p =>
    match mapGet beforeMap p.1 with
    | none => none
    | some before =>
      if issueChanged before p.2 && closedTransition before p.2 then some p.2
      else none)

/-- Entries the diff loop pushes onto `updated`: present in both, changed,
not a closed transition; carries before and after states (src/diff.ts
lines 91-93). -/
def diffUpdated (beforeMap afterMap : IssueMap) : List UpdatedIssue :=
  afterMap.filterMap (fun p =>
    match mapGet beforeMap p.1 with
    | none => none
    | some before =>
      if issueChanged before p.2 && !closedTransition before p.2 then
        some { id := p.1, before := before, after := p.2 }
      else none)

/-- src/diff.ts `diff` (lines 72-98): parse both contents into maps (last
occurrence wins) and classify every identifier of `after`. -/
def diff (input : DiffInput) : DiffResult :=
  { created := diffCreated (parseToMap input.before) (parseToMap input.after)
    updated := diffUpdated (parseToMap input.before) (parseToMap input.after)
    closed := diffClosed (parseToMap input.before) (parseToMap input.after) }

lemma issueChanged_self (i : Issue) (h : i.updated ≠ none) :
    issueChanged i i = false := by
  obtain ⟨t, ht⟩ := Option.ne_none_iff_exists'.mp h
  simp [issueChanged, jsTimeEq, ht]

lemma closedTransition_self (i : Issue) : closedTransition i i = false := by
  unfold closedTransition
  cases h : i.status == "closed"
  · simp [h]
  · simp [bne, h]

lemma mapGet_self_of_mem {m : IssueMap} (hn : keysNodup m) :
    ∀ p ∈ m, mapGet m p.1 = some p.2 := by
  intro p hp
  exact mem_mapGet hn (by simpa using hp)

/-- src/watcher.ts `WatcherEventType`. -/
inductive WatcherEventType where
  | created
  | updated
  | closed
  | reopened
  deriving DecidableEq, Repr

/-- src/watcher.ts `WatcherEvent`. -/
structure WatcherEvent where
  type : WatcherEventType
  issue : Issue
  previousIssue : Option Issue := none
  deriving DecidableEq, Repr

/-- The watcher's in-memory state across reconciliation passes: the last
processed file size and the known-issue baseline (src/watcher.ts lines
55-56). -/
structure WatcherState where
  lastSize : Nat
  knownIssues : IssueMap
  deriving DecidableEq, Repr

/-- Result of one `processChanges` pass: the new watcher state, the issue
events emitted (in emission order) and whether the generic change
notification fired. -/
structure ProcessResult where
  state : WatcherState
  events : List WatcherEvent
  changeEmitted : Bool
  deriving DecidableEq, Repr

/-- The events the change-detection loop of `processChanges` emits for one
entry of the freshly read map (src/watcher.ts lines 110-134): a `created`
event when the id is absent from the baseline; when the id is present, one
event iff the status differs, typed `closed` when the new status is
closed, `reopened` when the previous status was closed, `updated`
otherwise; nothing when the status is unchanged. -/
def eventsForEntry (known : IssueMap) (p : String × Issue) : List WatcherEvent :=
  match mapGet known p.1 with
  | none => [{ type := WatcherEventType.created, issue := p.2 }]
  | some previous =>
    if previous.status != p.2.status then
      [{ type :=
           if p.2.status == "closed" then WatcherEventType.closed
           else if previous.status == "closed" then WatcherEventType.reopened
           else WatcherEventType.updated
         issue := p.2
         previousIssue := some previous }]
    else []

/-- The full change-detection loop: iterate the new map in insertion order,
concatenating each entry's events. -/
def emittedEvents (known : IssueMap) (current : IssueMap) : List WatcherEvent :=
  match current with
  | [] => []
  | p :: rest => eventsForEntry known p ++ emittedEvents known rest

/-- src/watcher.ts `processChanges` (lines 86-148): when the file size did
not grow, only record the new size and return without reading, diffing or
notifying; otherwise re-read the log, emit one typed event per
status-changed or new record, replace the baseline and fire the change
notification. -/
def processChanges (st : WatcherState) (currentSize : Nat)
    (content : List (Option RawIssue)) : ProcessResult :=
  if currentSize ≤ st.lastSize then
    { state := { lastSize := currentSize, knownIssues := st.knownIssues }
      events := []
      changeEmitted := false }
  else
    { state := { lastSize := currentSize, knownIssues := parseToMap content }
      events := emittedEvents st.knownIssues (parseToMap content)
      changeEmitted := true }

lemma eventsForEntry_issue (known : IssueMap) (p : String × Issue) :
    ∀ e ∈ eventsForEntry known p, e.issue = p.2 := by
  intro e he
  unfold eventsForEntry at he
  cases hg : mapGet known p.1 with
  | none =>
    simp only [hg] at he
    simp at he
    rw [he]
  | some previous =>
    simp only [hg] at he
    by_cases hs : (previous.status != p.2.status) = true
    · simp only [if_pos hs, List.mem_singleton] at he
      rw [he]
    · simp only [if_neg hs] at he
      simp at he

lemma filter_emittedEvents_of_notMem (known : IssueMap) (a : IssueMap)
    (id : String) (hc : coherent a) (hid : id ∉ a.map Prod.fst) :
    (emittedEvents known a).filter (fun e => e.issue.id == id) = [] := by
  induction a with
  | nil => rfl
  | cons p rest ih =>
    rw [emittedEvents, List.filter_append]
    have h1 : (eventsForEntry known p).filter (fun e => e.issue.id == id) = [] := by
      apply List.filter_eq_nil_iff.mpr
      intro e he
      have := eventsForEntry_issue known p e he
      rw [this]
      have hco := hc p (List.mem_cons_self _ _)
      rw [hco]
      simp only [List.map_cons, List.mem_cons] at hid
      intro hbe
      have : p.1 = id := by simpa using hbe
      exact hid (Or.inl this.symm)
    have h2 : (emittedEvents known rest).filter (fun e => e.issue.id == id) = [] := by
      apply ih
      · intro q hq
        exact hc q (List.mem_cons_of_mem _ hq)
      · intro hmem
        exact hid (List.mem_cons_of_mem _ hmem)
    rw [h1, h2]
    rfl

lemma filter_emittedEvents (known a : IssueMap) (id : String) (cur : Issue)
    (hn : keysNodup a) (hc : coherent a) (hcur : mapGet a id = some cur) :
    (emittedEvents known a).filter (fun e => e.issue.id == id) =
      eventsForEntry known (id, cur) := by
  induction a with
  | nil => simp [mapGet] at hcur
  | cons p rest ih =>
    rw [emittedEvents, List.filter_append]
    by_cases hk : p.1 = id
    · rw [mapGet, if_pos hk] at hcur
      have hv : p.2 = cur := Option.some.inj hcur
      have hp : p = (id, cur) := by
        obtain ⟨x, y⟩ := p
        simp only at hk hv
        simp [hk, hv]
      have h1 : (eventsForEntry known p).filter (fun e => e.issue.id == id) =
          eventsForEntry known p := by
        apply List.filter_eq_self.mpr
        intro e he
        rw [eventsForEntry_issue known p e he, hp]
        have : cur.id = id := by
          have := hc p (List.mem_cons_self _ _)
          rw [hp] at this
          exact this
        simpa using this
      have h2 : (emittedEvents known rest).filter (fun e => e.issue.id == id) = [] := by
        apply filter_emittedEvents_of_notMem
        · intro q hq
          exact hc q (List.mem_cons_of_mem _ hq)
        · have := (List.nodup_cons.mp hn).1
          rw [hk] at this
          exact this
      rw [h1, h2, hp, List.append_nil]
    · rw [mapGet, if_neg hk] at hcur
      have h1 : (eventsForEntry known p).filter (fun e => e.issue.id == id) = [] := by
        apply List.filter_eq_nil_iff.mpr
        intro e he
        rw [eventsForEntry_issue known p e he]
        have hco := hc p (List.mem_cons_self _ _)
        rw [hco]
        simpa using hk
      rw [h1, List.nil_append]
      exact ih (List.nodup_cons.mp hn).2
        (fun q hq => hc q (List.mem_cons_of_mem _ hq)) hcur

/-- src/issues.ts `isBlocked` (lines 62-73): an issue is blocked iff some
`dependsOn` id resolves in the snapshot map to a non-closed issue; a
dangling reference never blocks. -/
def isBlocked (issue : Issue) (allIssues : IssueMap) : Bool :=
  if issue.dependsOn.length = 0 then false
  else
    issue.dependsOn.any (fun depId =>
      match mapGet allIssues depId with
      | some dep => dep.status != "closed"
      | none => false)

/-- The `issuesById` map of src/issues.ts `loadIssues` (line 45):
`new Map(issues.map(i => [i.id, i]))`, last occurrence of an id wins. -/
def buildById (issues : List Issue) : IssueMap :=
  issues.foldl (fun m i => mapSet m i.id i) []

/-- src/issues.ts `ready` (lines 86-99): the non-closed, non-blocked
issues, in load order. -/
def ready (issues : List Issue) : List Issue :=
  issues.filter (fun issue =>
    !(issue.status == "closed") && !(isBlocked issue (buildById issues)))

/-- src/issues.ts `blocked` (lines 101-109): the non-closed, blocked
issues, in load order. -/
def blocked (issues : List Issue) : List Issue :=
  issues.filter (fun issue =>
    !(issue.status == "closed") && isBlocked issue (buildById issues))

/-- src/workflows.ts `WorkflowType`. -/
inductive WorkflowType where
  | issue
  | schedule
  | manual
  deriving DecidableEq, Repr

/-- src/workflows.ts `WorkflowStatus`. -/
inductive WorkflowStatus where
  | success
  | failed
  deriving DecidableEq, Repr

/-- src/workflows.ts `WorkflowRecord`: the union of issue-, schedule- and
manual-triggered records flattened into one runtime shape (the JSONL rows
are duck-typed objects; fields absent for a variant are `none`). -/
structure WorkflowRecord where
  type : WorkflowType
  status : WorkflowStatus
  handler : String
  trigger : String
  commit : String
  duration : Int
  triggered_at : Option String := none
  error : Option String := none
  issue : Option String := none
  event : Option String := none
  cron : Option String := none
  deriving DecidableEq, Repr

/-- src/workflows.ts `record` (lines 114-122): append one entry stamped
with the current time; prior entries are never touched. `now` stands for
`new Date().toISOString()`. -/
def record (records : List WorkflowRecord) (input : WorkflowRecord)
    (now : String) : List WorkflowRecord :=
  records ++ [{ input with triggered_at := some now }]

/-- src/workflows.ts `wasExecuted` (lines 124-134): true iff some stored
entry has type `issue`, the given issue id and event name, and status
`success`. -/
def wasExecuted (records : List WorkflowRecord) (issue event : String) : Bool :=
  records.any (fun r =>
    r.type == WorkflowType.issue &&
    r.issue == some issue &&
    r.event == some event &&
    r.status == WorkflowStatus.success)

/-- The predicate of src/workflows.ts `retry` (lines 164-170), written
inline in the source `find` call: an issue-typed entry for the given pair
with status `failed`. -/
def matchesFailed (r : WorkflowRecord) (issue event : String) : Bool :=
  r.type == WorkflowType.issue &&
  r.issue == some issue &&
  r.event == some event &&
  r.status == WorkflowStatus.failed

/-- src/workflows.ts `RetryInfo`. -/
structure RetryInfo where
  issue : String
  event : String
  handler : String
  error : Option String := none
  deriving DecidableEq, Repr

/-- src/workflows.ts `retry` (lines 161-182): `Array.find` — the FIRST
(oldest, in append order) failed entry for the pair, or null. The matched
entry necessarily has `issue = some _` and `event = some _`, so the
`getD` defaults are never taken. -/
def retry (records : List WorkflowRecord) (issue event : String) :
    Option RetryInfo :=
  match records.find? (fun r => matchesFailed r issue event) with
  | none => none
  | some failedRecord =>
    some { issue := failedRecord.issue.getD ""
           event := failedRecord.event.getD ""
           handler := failedRecord.handler
           error := failedRecord.error }

/-- src/runtime.ts `ExecutionResult`. -/
structure ExecutionResult where
  success : Bool
  error : Option String := none
  duration : Option Int := none
  deriving DecidableEq, Repr

/-- src/runtime.ts `execute` (lines 95-125): invoke the handler inside a
try/catch; a normal return yields success, a thrown error is caught and
converted to a failure carrying the error message; both carry the elapsed
duration. The handler's behaviour is its outcome (`Except.error msg`
models a throw/rejection); `duration` stands for the measured
`Date.now() - start`. -/
def execute (handlerOutcome : Except String Unit) (duration : Int) :
    ExecutionResult :=
  match handlerOutcome with
  | Except.ok _ => { success := true, duration := some duration }
  | Except.error msg =>
    { success := false, error := some msg, duration := some duration }

/-- Name of the watcher event as dispatched (cli.ts line 152 builds
`issue.` ++ the event type). -/
def eventTypeName (t : WatcherEventType) : String :=
  match t with
  | WatcherEventType.created => "created"
  | WatcherEventType.updated => "updated"
  | WatcherEventType.closed => "closed"
  | WatcherEventType.reopened => "reopened"

/-- Observable outcome of one dispatch: the daemon's workflows.jsonl
content (the Execution Ledger) after the dispatch, and the
`onHandlerExecuted` callback invocation (event name and result), if any. -/
structure DispatchOutput where
  ledger : List WorkflowRecord
  reported : Option (String × ExecutionResult)
  deriving DecidableEq, Repr

/-- src/cli.ts `handleIssueEvent` (lines 151-173): look up the loaded
handler for `issue.<type>`; when absent do nothing; when present run it
through `runtime.execute` and report the result via the
`onHandlerExecuted` callback. The daemon's Execution Ledger
(workflows.jsonl, threaded through as `ledger`) is never written: no
`Workflows(...).record` call exists anywhere in the dispatch path. -/
def handleIssueEvent (loadedHandlers : List (String × Except String Unit))
    (ev : WatcherEvent) (duration : Int)
    (ledger : List WorkflowRecord) : DispatchOutput :=
  let eventName := "issue." ++ eventTypeName ev.type
  match (loadedHandlers.find? (fun p => p.1 == eventName)).map Prod.snd with
  | none => { ledger := ledger, reported := none }
  | some outcome =>
    { ledger := ledger, reported := some (eventName, execute outcome duration) }

/-- Sample raw line: an open task, id bw-1. -/
def sampleOpenRaw : RawIssue :=
  { id := "bw-1", title := "Task 1", status := "open", priority := 2
    issue_type := "task", created_at := some 1000, updated_at := some 1000 }

/-- The same record closed later. -/
def sampleClosedRaw : RawIssue :=
  { sampleOpenRaw with
    status := "closed"
    closed_at := some (some 2000)
    updated_at := some 2000 }

/-- The same record with only title and update timestamp changed, status
unchanged. -/
def sampleRetitledRaw : RawIssue :=
  { sampleOpenRaw with title := "Task 1 renamed", updated_at := some 2000 }

/-- The parsed open task. -/
def sampleOpenIssue : Issue := issueOfRaw sampleOpenRaw

/-- A raw line whose JSON parses but whose status, kind and priority all
lie outside the closed enumerations. -/
def invalidRaw : RawIssue :=
  { id := "bw-9", title := "Weird", status := "wontfix", priority := 9
    issue_type := "story", created_at := some 0, updated_at := some 0 }

/-- A raw line whose JSON parses but whose update-timestamp string does
not parse as a date: `new Date(...)` yields an Invalid Date. -/
def nanDateRaw : RawIssue :=
  { id := "bw-7", title := "Bad date", status := "open", priority := 1
    issue_type := "task", created_at := none, updated_at := none }

/-- A failed issue-typed ledger entry for (bw-1, closed), handler h1. -/
def failedRecord1 : WorkflowRecord :=
  { type := WorkflowType.issue, status := WorkflowStatus.failed
    handler := "h1", trigger := "push", commit := "c1", duration := 10
    error := some "e1", issue := some "bw-1", event := some "closed" }

/-- A later failed entry for the same pair, handler h2. -/
def failedRecord2 : WorkflowRecord :=
  { failedRecord1 with handler := "h2", commit := "c2", error := some "e2" }

/-- A successful issue-typed entry for (bw-1, created). -/
def successRecord1 : WorkflowRecord :=
  { type := WorkflowType.issue, status := WorkflowStatus.success
    handler := "h1", trigger := "push", commit := "c1", duration := 10
    issue := some "bw-1", event := some "created" }

/-- A failed issue-typed entry for (bw-1, created). -/
def failedCreatedRecord : WorkflowRecord :=
  { type := WorkflowType.issue, status := WorkflowStatus.failed
    handler := "h1", trigger := "push", commit := "c2", duration := 10
    error := some "late failure", issue := some "bw-1", event := some "created" }

/-- A manual entry carrying the same pair (bw-1, created) with status
success. -/
def manualRecord1 : WorkflowRecord :=
  { type := WorkflowType.manual, status := WorkflowStatus.success
    handler := "hm", trigger := "workflow_dispatch", commit := "c3", duration := 5
    issue := some "bw-1", event := some "created" }

/-- C8 (amended): diff applied to the pair (S, S) always returns empty
created and closed lists; the updated list is also empty provided every
record of the parsed snapshot carries a valid (parseable) update
timestamp. A record whose update timestamp is an Invalid Date compares
unequal to itself (`NaN !== NaN`) and registers as updated. -/
theorem c8_diff_self_classified (content : List (Option RawIssue)) :
    (diff { before := content, after := content }).created = [] ∧
    (diff { before := content, after := content }).closed = [] ∧
    ((∀ p ∈ parseToMap content, p.2.updated ≠ none) →
      (diff { before := content, after := content }).updated = []) := by
  have hn := keysNodup_parseToMap content
  have hget := mapGet_self_of_mem hn
  refine ⟨?_, ?_, ?_⟩
  · show diffCreated (parseToMap content) (parseToMap content) = []
    apply List.filterMap_eq_nil_iff.mpr
    intro p hp
    simp only [hget p hp]
  · show diffClosed (parseToMap content) (parseToMap content) = []
    apply List.filterMap_eq_nil_iff.mpr
    intro p hp
    simp only [hget p hp, closedTransition_self, Bool.and_false]
    simp
  · intro hvalid
    show diffUpdated (parseToMap content) (parseToMap content) = []
    apply List.filterMap_eq_nil_iff.mpr
    intro p hp
    simp only [hget p hp, issueChanged_self p.2 (hvalid p hp), Bool.false_and]
    simp

/-- C8 counterexample: content whose single line has an unparseable
update-timestamp string (Invalid Date, `getTime() = NaN`): diffing the
content against itself reports the record as updated against itself,
because `NaN !== NaN` makes the timestamp comparison non-reflexive. -/
theorem c8_counterexample :
    (diff { before := [some nanDateRaw], after := [some nanDateRaw] }).updated =
      [{ id := "bw-7", before := issueOfRaw nanDateRaw, after := issueOfRaw nanDateRaw }] ∧
    (diff { before := [some nanDateRaw], after := [some nanDateRaw] }).created = [] ∧
    (diff { before := [some nanDateRaw], after := [some nanDateRaw] }).closed = [] := by
  decide

/-- C8 witness: on content whose records all carry valid update
timestamps, diff of the content against itself is empty in all three
lists. -/
theorem c8_witness :
    (diff { before := [some sampleOpenRaw], after := [some sampleOpenRaw] }).created = [] ∧
    (diff { before := [some sampleOpenRaw], after := [some sampleOpenRaw] }).closed = [] ∧
    (diff { before := [some sampleOpenRaw], after := [some sampleOpenRaw] }).updated = [] :=
  ⟨(c8_diff_self_classified [some sampleOpenRaw]).1,
   (c8_diff_self_classified [some sampleOpenRaw]).2.1,
   (c8_diff_self_classified [some sampleOpenRaw]).2.2 (by decide)⟩

/-- C3 (amended): the reader skips only blank lines and lines whose JSON
fails to parse; a line whose JSON parses always yields a record, with
status, kind and priority carried through unvalidated. -/
theorem c3_no_validation (raw : RawIssue) :
    parseJsonlLine (some raw) = some (issueOfRaw raw) ∧
    (issueOfRaw raw).status = raw.status ∧
    (issueOfRaw raw).type = raw.issue_type ∧
    (issueOfRaw raw).priority = raw.priority :=
  ⟨rfl, rfl, rfl, rfl⟩

/-- C3 counterexample: a parseable line with status, kind and priority all
outside the closed enumerations is NOT skipped — it lands in the snapshot
with the invalid values intact. -/
theorem c3_counterexample :
    parseJsonlLine (some invalidRaw) = some (issueOfRaw invalidRaw) ∧
    isValidStatus (issueOfRaw invalidRaw).status = false ∧
    isValidType (issueOfRaw invalidRaw).type = false ∧
    isValidPriority (issueOfRaw invalidRaw).priority = false ∧
    parseToMap [some invalidRaw] = [("bw-9", issueOfRaw invalidRaw)] := by
  decide

/-- C9: when the log size did not grow past the last processed size, the
reconciliation pass emits no issue events and no change notification and
leaves the known-issue baseline unchanged; only the recorded size is
updated — whatever the file content is. -/
theorem c9_no_growth_frame (st : WatcherState) (currentSize : Nat)
    (content : List (Option RawIssue)) (h : currentSize ≤ st.lastSize) :
    processChanges st currentSize content =
      { state := { lastSize := currentSize, knownIssues := st.knownIssues }
        events := []
        changeEmitted := false } := by
  unfold processChanges
  rw [if_pos h]

/-- C9 witness: equal size, content that differs from the baseline —
still no events, no notification, baseline untouched. -/
theorem c9_witness :
    processChanges { lastSize := 10, knownIssues := [("bw-1", sampleOpenIssue)] }
        10 [some sampleClosedRaw] =
      { state := { lastSize := 10, knownIssues := [("bw-1", sampleOpenIssue)] }
        events := []
        changeEmitted := false } ∧
    parseToMap [some sampleClosedRaw] ≠ [("bw-1", sampleOpenIssue)] :=
  ⟨c9_no_growth_frame { lastSize := 10, knownIssues := [("bw-1", sampleOpenIssue)] }
      10 [some sampleClosedRaw] (by decide),
   by decide⟩

/-- C2 (code bug evaluated): with a loaded handler for issue.created that
throws, the dispatcher reports the failure (with its duration) through the
onHandlerExecuted callback but appends nothing to the Execution Ledger —
the ledger is as empty after the dispatch as before it. -/
theorem c2_dispatch_writes_no_ledger :
    (handleIssueEvent [("issue.created", Except.error "boom")]
        { type := WatcherEventType.created, issue := sampleOpenIssue } 5 []).reported =
      some ("issue.created", { success := false, error := some "boom", duration := some 5 }) ∧
    (handleIssueEvent [("issue.created", Except.error "boom")]
        { type := WatcherEventType.created, issue := sampleOpenIssue } 5 []).ledger = [] := by
  constructor
  · rfl
  · rfl

/-- C6: wasExecuted is existential over the stored history — true iff at
least one issue-typed entry for the pair has status success — and
recording a later failed entry for the same pair never changes the
result. -/
theorem c6_wasExecuted_existential (l : List WorkflowRecord) (i e : String) :
    (wasExecuted l i e = true ↔
      ∃ r ∈ l, r.type = WorkflowType.issue ∧ r.issue = some i ∧
        r.event = some e ∧ r.status = WorkflowStatus.success) ∧
    (∀ f now, f.status = WorkflowStatus.failed →
      wasExecuted (record l f now) i e = wasExecuted l i e) := by
  constructor
  · rw [wasExecuted, List.any_eq_true]
    constructor
    · rintro ⟨r, hr, hp⟩
      refine ⟨r, hr, ?_⟩
      simpa [Bool.and_eq_true, and_assoc] using hp
    · rintro ⟨r, hr, hp⟩
      refine ⟨r, hr, ?_⟩
      simpa [Bool.and_eq_true, and_assoc] using hp
  · intro f now hf
    rw [record, wasExecuted, wasExecuted, List.any_append]
    have hp : (({ f with triggered_at := some now } : WorkflowRecord).type == WorkflowType.issue &&
        ({ f with triggered_at := some now } : WorkflowRecord).issue == some i &&
        ({ f with triggered_at := some now } : WorkflowRecord).event == some e &&
        ({ f with triggered_at := some now } : WorkflowRecord).status == WorkflowStatus.success) = false := by
      have hst : ({ f with triggered_at := some now } : WorkflowRecord).status = f.status := rfl
      simp [hst, hf]
    simp only [List.any_cons, List.any_nil, hp, Bool.or_false]

/-- C6 witness: a success for (bw-1, created) makes wasExecuted true, and
recording a later failed entry for the same pair leaves it true. -/
theorem c6_witness :
    wasExecuted (record [successRecord1] failedCreatedRecord "t1") "bw-1" "created" =
      wasExecuted [successRecord1] "bw-1" "created" ∧
    wasExecuted [successRecord1] "bw-1" "created" = true :=
  ⟨(c6_wasExecuted_existential [successRecord1] "bw-1" "created").2
      failedCreatedRecord "t1" rfl,
   by decide⟩

/-- C10: entries of type manual or schedule are invisible to wasExecuted
and retry, wherever they sit in the history and whatever issue id, event
name and status they carry. -/
theorem c10_non_issue_invisible (l1 l2 : List WorkflowRecord)
    (m : WorkflowRecord) (i e : String) (h : m.type ≠ WorkflowType.issue) :
    wasExecuted (l1 ++ m :: l2) i e = wasExecuted (l1 ++ l2) i e ∧
    retry (l1 ++ m :: l2) i e = retry (l1 ++ l2) i e := by
  have hbeq : (m.type == WorkflowType.issue) = false := by
    cases hm : m.type
    · exact absurd hm h
    · rfl
    · rfl
  constructor
  · rw [wasExecuted, wasExecuted, List.any_append, List.any_append, List.any_cons]
    simp only [hbeq, Bool.false_and, Bool.false_or]
  · rw [retry, retry]
    have hfind : List.find? (fun r => matchesFailed r i e) (l1 ++ m :: l2) =
        List.find? (fun r => matchesFailed r i e) (l1 ++ l2) := by
      have hm : matchesFailed m i e = false := by
        rw [matchesFailed, hbeq]
        simp
      induction l1 with
      | nil =>
        simp only [List.nil_append, List.find?, hm]
      | cons x rest ih =>
        simp only [List.cons_append, List.find?]
        cases hx : matchesFailed x i e
        · exact ih
        · rfl
    rw [hfind]

/-- C10 witness: a manual entry carrying the pair (bw-1, created) with
status success affects neither query, and wasExecuted stays false. -/
theorem c10_witness :
    wasExecuted [manualRecord1] "bw-1" "created" =
      wasExecuted ([] : List WorkflowRecord) "bw-1" "created" ∧
    retry [manualRecord1] "bw-1" "created" =
      retry ([] : List WorkflowRecord) "bw-1" "created" ∧
    wasExecuted [manualRecord1] "bw-1" "created" = false :=
  ⟨(c10_non_issue_invisible [] [] manualRecord1 "bw-1" "created" (by decide)).1,
   (c10_non_issue_invisible [] [] manualRecord1 "bw-1" "created" (by decide)).2,
   by decide⟩

/-- C4 (amended): retry returns the handler identifier and error message
of the EARLIEST appended failed entry matching the pair (Array.find scans
in append order), or null if no failed entry matches. -/
theorem c4_retry_first_failed (i e : String) :
    (∀ l : List WorkflowRecord,
      (∀ r ∈ l, matchesFailed r i e = false) → retry l i e = none) ∧
    (∀ (l1 l2 : List WorkflowRecord) (r : WorkflowRecord),
      matchesFailed r i e = true →
      (∀ x ∈ l1, matchesFailed x i e = false) →
      retry (l1 ++ r :: l2) i e =
        some { issue := r.issue.getD "", event := r.event.getD ""
               handler := r.handler, error := r.error }) := by
  constructor
  · intro l hl
    rw [retry]
    have : List.find? (fun r => matchesFailed r i e) l = none := by
      apply List.find?_eq_none.mpr
      intro x hx
      simp [hl x hx]
    rw [this]
  · intro l1 l2 r hr hl1
    rw [retry]
    have : List.find? (fun r => matchesFailed r i e) (l1 ++ r :: l2) = some r := by
      induction l1 with
      | nil =>
        simp only [List.nil_append, List.find?, hr]
      | cons x rest ih =>
        have hx : matchesFailed x i e = false := hl1 x (List.mem_cons_self _ _)
        simp only [List.cons_append, List.find?, hx]
        exact ih (fun y hy => hl1 y (List.mem_cons_of_mem _ hy))
    rw [this]

/-- C4 counterexample: with two failed entries for the pair (bw-1,
closed), retry returns the first (oldest) one's handler h1, while the
most recently appended matching failed entry is the second, with handler
h2. -/
theorem c4_counterexample :
    retry [failedRecord1, failedRecord2] "bw-1" "closed" =
      some { issue := "bw-1", event := "closed", handler := "h1", error := some "e1" } ∧
    matchesFailed failedRecord2 "bw-1" "closed" = true ∧
    failedRecord2.handler = "h2" ∧
    ("h1" : String) ≠ "h2" := by
  decide

/-- C4 witness: retry is null on an empty history, and returns the first
failed match when one exists after a non-matching entry. -/
theorem c4_witness :
    retry ([] : List WorkflowRecord) "bw-1" "closed" = none ∧
    retry [successRecord1, failedRecord1] "bw-1" "closed" =
      some { issue := "bw-1", event := "closed", handler := "h1", error := some "e1" } :=
  ⟨(c4_retry_first_failed "bw-1" "closed").1 [] (by decide),
   (c4_retry_first_failed "bw-1" "closed").2 [successRecord1] [] failedRecord1
      (by decide) (by decide)⟩

lemma isBlocked_iff (i : Issue) (m : IssueMap) :
    isBlocked i m = true ↔
      ∃ depId ∈ i.dependsOn, ∃ dep, mapGet m depId = some dep ∧
        dep.status ≠ "closed" := by
  unfold isBlocked
  by_cases hlen : i.dependsOn.length = 0
  · rw [if_pos hlen]
    have he : i.dependsOn = [] := List.length_eq_zero.mp hlen
    rw [he]
    simp
  · rw [if_neg hlen, List.any_eq_true]
    constructor
    · rintro ⟨depId, hdep, hb⟩
      cases hg : mapGet m depId with
      | none =>
        rw [hg] at hb
        simp at hb
      | some dep =>
        rw [hg] at hb
        refine ⟨depId, hdep, dep, hg, ?_⟩
        simpa using hb
    · rintro ⟨depId, hdep, dep, hg, hne⟩
      refine ⟨depId, hdep, ?_⟩
      rw [hg]
      simpa using hne

/-- Sample snapshot: a closed dependency, an open dependency, an issue
blocked on the open one, and an issue whose dependencies are a closed
record and a dangling reference (hence ready). -/
def depClosed : Issue :=
  { id := "dep-1", title := "Dep closed", status := "closed", type := "task"
    priority := 1, created := some 0, updated := some 0 }

def depOpen : Issue :=
  { id := "dep-2", title := "Dep open", status := "open", type := "task"
    priority := 1, created := some 0, updated := some 0 }

def blockedIssue : Issue :=
  { id := "bw-2", title := "Blocked", status := "open", type := "task"
    priority := 2, created := some 0, updated := some 0, dependsOn := ["dep-2"] }

def readyIssue : Issue :=
  { id := "bw-3", title := "Ready", status := "open", type := "task"
    priority := 2, created := some 0, updated := some 0
    dependsOn := ["dep-1", "ghost-1"] }

def sampleIssues : List Issue := [depClosed, depOpen, blockedIssue, readyIssue]

/-- C5: ready() and blocked() partition the non-closed records of a
snapshot: a record is blocked iff some dependsOn entry resolves in the
snapshot to a present, non-closed issue (dangling references never
block), ready otherwise; closed records are in neither list, the two
lists are disjoint, and together they cover every non-closed record. -/
theorem c5_ready_blocked_partition (issues : List Issue) (i : Issue) :
    (i ∈ ready issues ↔
      i ∈ issues ∧ i.status ≠ "closed" ∧ isBlocked i (buildById issues) = false) ∧
    (i ∈ blocked issues ↔
      i ∈ issues ∧ i.status ≠ "closed" ∧ isBlocked i (buildById issues) = true) ∧
    (isBlocked i (buildById issues) = true ↔
      ∃ depId ∈ i.dependsOn, ∃ dep, mapGet (buildById issues) depId = some dep ∧
        dep.status ≠ "closed") ∧
    ¬(i ∈ ready issues ∧ i ∈ blocked issues) ∧
    (i ∈ issues → i.status ≠ "closed" → (i ∈ ready issues ∨ i ∈ blocked issues)) ∧
    (i.status = "closed" → i ∉ ready issues ∧ i ∉ blocked issues) := by
  have hready : i ∈ ready issues ↔
      i ∈ issues ∧ i.status ≠ "closed" ∧ isBlocked i (buildById issues) = false := by
    rw [ready, List.mem_filter]
    constructor
    · rintro ⟨hmem, hp⟩
      simp only [Bool.and_eq_true, Bool.not_eq_true'] at hp
      refine ⟨hmem, ?_, hp.2⟩
      simpa using hp.1
    · rintro ⟨hmem, hs, hb⟩
      refine ⟨hmem, ?_⟩
      simp only [Bool.and_eq_true, Bool.not_eq_true']
      exact ⟨by simpa using hs, hb⟩
  have hblocked : i ∈ blocked issues ↔
      i ∈ issues ∧ i.status ≠ "closed" ∧ isBlocked i (buildById issues) = true := by
    rw [blocked, List.mem_filter]
    constructor
    · rintro ⟨hmem, hp⟩
      simp only [Bool.and_eq_true, Bool.not_eq_true'] at hp
      refine ⟨hmem, ?_, hp.2⟩
      simpa using hp.1
    · rintro ⟨hmem, hs, hb⟩
      refine ⟨hmem, ?_⟩
      simp only [Bool.and_eq_true, Bool.not_eq_true']
      exact ⟨by simpa using hs, hb⟩
  refine ⟨hready, hblocked, isBlocked_iff i (buildById issues), ?_, ?_, ?_⟩
  · rintro ⟨h1, h2⟩
    have hb1 := (hready.mp h1).2.2
    have hb2 := (hblocked.mp h2).2.2
    rw [hb1] at hb2
    exact Bool.false_ne_true hb2
  · intro hmem hs
    cases hb : isBlocked i (buildById issues)
    · exact Or.inl (hready.mpr ⟨hmem, hs, hb⟩)
    · exact Or.inr (hblocked.mpr ⟨hmem, hs, hb⟩)
  · intro hcl
    constructor
    · intro hmem
      exact (hready.mp hmem).2.1 hcl
    · intro hmem
      exact (hblocked.mp hmem).2.1 hcl

/-- C5 witness: in the sample snapshot, the issue depending on an open
record is blocked and the issue depending only on a closed record and a
dangling id is ready. -/
theorem c5_witness :
    blockedIssue ∈ blocked sampleIssues ∧ readyIssue ∈ ready sampleIssues :=
  ⟨((c5_ready_blocked_partition sampleIssues blockedIssue).2.1).mpr (by decide),
   ((c5_ready_blocked_partition sampleIssues readyIssue).1).mpr (by decide)⟩

lemma value_at_key {m : IssueMap} {p : String × Issue} {id : String}
    {after : Issue} (hn : keysNodup m) (hp : p ∈ m)
    (ha : mapGet m id = some after) (hpid : p.1 = id) : p.2 = after := by
  have h2 : mapGet m id = some p.2 := by
    apply mem_mapGet hn
    rw [← hpid]
    simpa using hp
  rw [h2] at ha
  exact Option.some.inj ha

lemma closedTransition_iff (b a : Issue) :
    closedTransition b a = true ↔ (b.status ≠ "closed" ∧ a.status = "closed") := by
  simp [closedTransition]

/-- C7: for every pair of log contents and every identifier present in
both parsed snapshots whose compared fields differ, the diff places the
record in `closed` exactly when the previous status was not closed and the
new one is, and in `updated` (carrying both the before- and after-state)
otherwise; no identifier lands in both lists. -/
theorem c7_diff_classification (cb ca : List (Option RawIssue)) (id : String)
    (before after : Issue)
    (hb : mapGet (parseToMap cb) id = some before)
    (ha : mapGet (parseToMap ca) id = some after)
    (hch : issueChanged before after = true) :
    ((∃ x ∈ (diff { before := cb, after := ca }).closed, x.id = id) ↔
      (before.status ≠ "closed" ∧ after.status = "closed")) ∧
    ((∃ u ∈ (diff { before := cb, after := ca }).updated, u.id = id) ↔
      ¬(before.status ≠ "closed" ∧ after.status = "closed")) ∧
    (∀ u ∈ (diff { before := cb, after := ca }).updated, u.id = id →
      u.before = before ∧ u.after = after) ∧
    ¬((∃ x ∈ (diff { before := cb, after := ca }).closed, x.id = id) ∧
      (∃ u ∈ (diff { before := cb, after := ca }).updated, u.id = id)) := by
  have hn := keysNodup_parseToMap ca
  have hc := coherent_parseToMap ca
  have hmem : (id, after) ∈ parseToMap ca := mapGet_mem ha
  have haid : after.id = id := hc (id, after) hmem
  have hclosedIff : (∃ x ∈ (diff { before := cb, after := ca }).closed, x.id = id) ↔
      (before.status ≠ "closed" ∧ after.status = "closed") := by
    constructor
    · rintro ⟨x, hx, hxid⟩
      have hx2 : x ∈ (parseToMap ca).filterMap (fun p =>
          match mapGet (parseToMap cb) p.1 with
          | none => none
          | some bef =>
            if issueChanged bef p.2 && closedTransition bef p.2 then some p.2
            else none) := hx
      obtain ⟨p, hp, hfp⟩ := List.mem_filterMap.mp hx2
      cases hg : mapGet (parseToMap cb) p.1 with
      | none =>
        simp only [hg] at hfp
        exact absurd hfp (by simp)
      | some bef =>
        simp only [hg] at hfp
        by_cases hcond : (issueChanged bef p.2 && closedTransition bef p.2) = true
        · rw [if_pos hcond] at hfp
          have hxp : x = p.2 := (Option.some.inj hfp).symm
          have hpid : p.1 = id := by
            rw [← hc p hp, ← hxp]
            exact hxid
          have hpa : p.2 = after := value_at_key hn hp ha hpid
          rw [hpid] at hg
          rw [hg] at hb
          have hbef : bef = before := Option.some.inj hb
          rw [hpa, hbef] at hcond
          exact (closedTransition_iff before after).mp
            (Bool.and_elim_right hcond)
        · rw [if_neg hcond] at hfp
          exact absurd hfp (by simp)
    · rintro ⟨hbs, has⟩
      refine ⟨after, ?_, haid⟩
      show after ∈ (parseToMap ca).filterMap (fun p =>
        match mapGet (parseToMap cb) p.1 with
        | none => none
        | some bef =>
          if issueChanged bef p.2 && closedTransition bef p.2 then some p.2
          else none)
      apply List.mem_filterMap.mpr
      refine ⟨(id, after), hmem, ?_⟩
      simp only [hb]
      rw [if_pos]
      rw [hch, (closedTransition_iff before after).mpr ⟨hbs, has⟩]
      rfl
  have hupdatedMem : ∀ u ∈ (diff { before := cb, after := ca }).updated,
      u.id = id → u.before = before ∧ u.after = after ∧
        issueChanged before after = true ∧ closedTransition before after = false := by
    intro u hu huid
    have hu2 : u ∈ (parseToMap ca).filterMap (fun p =>
        match mapGet (parseToMap cb) p.1 with
        | none => none
        | some bef =>
          if issueChanged bef p.2 && !closedTransition bef p.2 then
            some { id := p.1, before := bef, after := p.2 }
          else none) := hu
    obtain ⟨p, hp, hfp⟩ := List.mem_filterMap.mp hu2
    cases hg : mapGet (parseToMap cb) p.1 with
    | none =>
      simp only [hg] at hfp
      exact absurd hfp (by simp)
    | some bef =>
      simp only [hg] at hfp
      by_cases hcond : (issueChanged bef p.2 && !closedTransition bef p.2) = true
      · rw [if_pos hcond] at hfp
        have hup : u = { id := p.1, before := bef, after := p.2 } :=
          (Option.some.inj hfp).symm
        have hpid : p.1 = id := by
          rw [← huid, hup]
        have hpa : p.2 = after := value_at_key hn hp ha hpid
        rw [hpid] at hg
        rw [hg] at hb
        have hbef : bef = before := Option.some.inj hb
        rw [hpa, hbef] at hcond
        have hcond2 := Bool.and_elim_right hcond
        refine ⟨?_, ?_, Bool.and_elim_left hcond, ?_⟩
        · rw [hup]
          exact hbef
        · rw [hup]
          exact hpa
        · cases hct : closedTransition before after
          · rfl
          · rw [hct] at hcond2
            simp at hcond2
      · rw [if_neg hcond] at hfp
        exact absurd hfp (by simp)
  have hupdatedIff : (∃ u ∈ (diff { before := cb, after := ca }).updated, u.id = id) ↔
      ¬(before.status ≠ "closed" ∧ after.status = "closed") := by
    constructor
    · rintro ⟨u, hu, huid⟩
      have := (hupdatedMem u hu huid).2.2.2
      intro hcontra
      rw [(closedTransition_iff before after).mpr hcontra] at this
      simp at this
    · intro hnot
      have hct : closedTransition before after = false := by
        cases hcf : closedTransition before after
        · rfl
        · exact absurd ((closedTransition_iff before after).mp hcf) hnot
      refine ⟨{ id := id, before := before, after := after }, ?_, rfl⟩
      show ({ id := id, before := before, after := after } : UpdatedIssue) ∈
        (parseToMap ca).filterMap (fun p =>
          match mapGet (parseToMap cb) p.1 with
          | none => none
          | some bef =>
            if issueChanged bef p.2 && !closedTransition bef p.2 then
              some { id := p.1, before := bef, after := p.2 }
            else none)
      apply List.mem_filterMap.mpr
      refine ⟨(id, after), hmem, ?_⟩
      simp only [hb]
      rw [if_pos]
      rw [hch, hct]
      rfl
  refine ⟨hclosedIff, hupdatedIff, ?_, ?_⟩
  · intro u hu huid
    exact ⟨(hupdatedMem u hu huid).1, (hupdatedMem u hu huid).2.1⟩
  · rintro ⟨h1, h2⟩
    exact (hupdatedIff.mp h2) (hclosedIff.mp h1)

/-- C7 witness: a record going open to closed between the two contents is
in `closed` and not in `updated`. -/
theorem c7_witness :
    (∃ x ∈ (diff { before := [some sampleOpenRaw], after := [some sampleClosedRaw] }).closed,
      x.id = "bw-1") ∧
    ¬(∃ u ∈ (diff { before := [some sampleOpenRaw], after := [some sampleClosedRaw] }).updated,
      u.id = "bw-1") :=
  ⟨(c7_diff_classification [some sampleOpenRaw] [some sampleClosedRaw] "bw-1"
      (issueOfRaw sampleOpenRaw) (issueOfRaw sampleClosedRaw)
      (by decide) (by decide) (by decide)).1.mpr (by decide),
   fun hu =>
    ((c7_diff_classification [some sampleOpenRaw] [some sampleClosedRaw] "bw-1"
      (issueOfRaw sampleOpenRaw) (issueOfRaw sampleClosedRaw)
      (by decide) (by decide) (by decide)).2.1.mp hu) (by decide)⟩

/-- C1 (amended): in a reconciliation pass in which the log grew, for each
identifier present in both the baseline and the newly read snapshot the
watcher emits exactly one typed event iff the STATUS differs between the
two versions — `closed` if the new status is closed, `reopened` if the
previous status was closed, `updated` otherwise — and emits no event for
that record when the status is unchanged, even if title, priority,
assignee, description or the update timestamp differ. -/
theorem c1_watcher_status_events (st : WatcherState) (currentSize : Nat)
    (content : List (Option RawIssue)) (id : String) (prev cur : Issue)
    (hgrow : st.lastSize < currentSize)
    (hprev : mapGet st.knownIssues id = some prev)
    (hcur : mapGet (parseToMap content) id = some cur) :
    (prev.status ≠ cur.status →
      (processChanges st currentSize content).events.filter
          (fun e => e.issue.id == id) =
        [{ type :=
             if cur.status == "closed" then WatcherEventType.closed
             else if prev.status == "closed" then WatcherEventType.reopened
             else WatcherEventType.updated
           issue := cur
           previousIssue := some prev }]) ∧
    (prev.status = cur.status →
      (processChanges st currentSize content).events.filter
          (fun e => e.issue.id == id) = []) := by
  have hn := keysNodup_parseToMap content
  have hc := coherent_parseToMap content
  have hpc : processChanges st currentSize content =
      { state := { lastSize := currentSize, knownIssues := parseToMap content }
        events := emittedEvents st.knownIssues (parseToMap content)
        changeEmitted := true } := by
    unfold processChanges
    rw [if_neg (not_le.mpr hgrow)]
  rw [hpc]
  have hfe := filter_emittedEvents st.knownIssues (parseToMap content) id cur hn hc hcur
  constructor
  · intro hne
    show (emittedEvents st.knownIssues (parseToMap content)).filter
        (fun e => e.issue.id == id) = _
    rw [hfe]
    unfold eventsForEntry
    simp only [hprev]
    rw [if_pos (by simpa using hne)]
  · intro heq
    show (emittedEvents st.knownIssues (parseToMap content)).filter
        (fun e => e.issue.id == id) = _
    rw [hfe]
    unfold eventsForEntry
    simp only [hprev]
    rw [if_neg (by simp [heq])]

/-- C1 counterexample: the record bw-1 is present in both baseline and
snapshot, its title and update timestamp differ (so the six-field change
predicate of the diff module holds), the log grew — yet the pass emits NO
event at all, where the claim demands exactly one `updated` event. -/
theorem c1_counterexample :
    issueChanged sampleOpenIssue (issueOfRaw sampleRetitledRaw) = true ∧
    sampleOpenIssue.status = (issueOfRaw sampleRetitledRaw).status ∧
    (processChanges { lastSize := 10, knownIssues := [("bw-1", sampleOpenIssue)] }
        20 [some sampleRetitledRaw]).events = [] ∧
    (processChanges { lastSize := 10, knownIssues := [("bw-1", sampleOpenIssue)] }
        20 [some sampleRetitledRaw]).state.knownIssues =
      [("bw-1", issueOfRaw sampleRetitledRaw)] := by
  decide

/-- C1 witness: a status change open to closed produces exactly one
`closed` event for the record. -/
theorem c1_witness :
    (processChanges { lastSize := 10, knownIssues := [("bw-1", sampleOpenIssue)] }
        20 [some sampleClosedRaw]).events.filter
        (fun e => e.issue.id == "bw-1") =
      [{ type :=
           if (issueOfRaw sampleClosedRaw).status == "closed" then WatcherEventType.closed
           else if sampleOpenIssue.status == "closed" then WatcherEventType.reopened
           else WatcherEventType.updated
         issue := issueOfRaw sampleClosedRaw
         previousIssue := some sampleOpenIssue }] :=
  (c1_watcher_status_events
      { lastSize := 10, knownIssues := [("bw-1", sampleOpenIssue)] }
      20 [some sampleClosedRaw] "bw-1" sampleOpenIssue (issueOfRaw sampleClosedRaw)
      (by decide) (by decide) (by decide)).1 (by decide)
